import Mathlib

/-!
Verification of the per-frame motion analysis core of ALTmotion (ver. 0.1).

The source is a Python script whose core is the `mmotion.analyse` callback:
for every delivered macroblock motion-vector grid it appends `sSAD`
(`np.sum(a['sad'])`) and `motionEstimate`
(`np.sum(np.absolute(a['x'])) + np.sum(np.absolute(a['y']))`) to per-slice
series, appends a detection timestamp and the current frame number when
`motionEstimate > motionDetectionThreshold`, locates the argmax of the
absolute-value arrays, converts the flat indices to (row, column), and
increments the frame counter.  At slice teardown the series are written to
text files, one `"<index>: <value>"` line each.

The embedding below follows the numpy semantics of the source: the `x` and
`y` fields are signed 8-bit, so `np.absolute` computes the absolute value
wrapped back into int8 (in particular the absolute value of -128 is -128),
and the sums accumulate in a wide (64-bit) integer, hence are exact here.
-/

namespace ALTmotion

/-- Two's-complement wrap of an integer into the signed 8-bit range
[-128, 127], as numpy int8 arithmetic does. -/
def toInt8 (v : Int) : Int := (v + 128) % 256 - 128

/-- `np.absolute` on an int8 value: the mathematical absolute value wrapped
back into int8.  `int8Abs (-128) = -128`. -/
def int8Abs (v : Int) : Int := toInt8 (v.natAbs : Int)

/-- Negation on an int8 value (two's complement): `int8Neg (-128) = -128`. -/
def int8Neg (v : Int) : Int := toInt8 (-v)

/-- One macroblock record of the motion vector data array: a signed 8-bit
`x` vector, a signed 8-bit `y` vector and an unsigned 16-bit `sad` value. -/
structure MacroBlock where
  x : Int
  y : Int
  sad : Nat
  deriving DecidableEq, Repr

/-- The int8 / uint16 range constraints on one macroblock record. -/
def MacroBlock.valid (b : MacroBlock) : Prop :=
  -128 ≤ b.x ∧ b.x ≤ 127 ∧ -128 ≤ b.y ∧ b.y ≤ 127 ∧ b.sad < 65536

/-- The motion vector data array delivered once per frame: a 2D grid of
macroblock records (rows of columns, row-major). -/
abbrev Grid := List (List MacroBlock)

/-- The configured number of columns of the motion vector data array
(81 for the 1280x720 frame size configured in the script). -/
def columnsPerRow : Nat := 81

/-- The configured detection threshold for `motionEstimate`. -/
def motionDetectionThreshold : Int := 1000

/-- `np.sum(a['sad'])`: the sum of the `sad` field over the whole grid,
row-major.  The numpy accumulator is a 64-bit integer, which is exact for
any realizable grid, so the sum is modelled exactly. -/
def sSADOf (a : Grid) : Nat := (a.flatten.map (fun b => b.sad)).sum

/-- `np.absolute(a['x'])` flattened row-major: the int8-wrapped absolute
values of the x components. -/
def xabsOf (a : Grid) : List Int := a.flatten.map (fun b => int8Abs b.x)

/-- `np.absolute(a['y'])` flattened row-major: the int8-wrapped absolute
values of the y components. -/
def yabsOf (a : Grid) : List Int := a.flatten.map (fun b => int8Abs b.y)

/-- `motionEstimate = np.sum(Xabs) + np.sum(Yabs)`.  The numpy sums promote
int8 elements to a 64-bit accumulator, so each sum is the exact integer sum
of the (int8-wrapped) absolute values. -/
def motionEstimateOf (a : Grid) : Int := (xabsOf a).sum + (yabsOf a).sum

/-- The element of a list of integers at an index, 0 out of range. -/
def nth : List Int → Nat → Int
  | [], _ => 0
  | v :: _, 0 => v
  | _ :: vs, n + 1 => nth vs n

/-- `np.argmax`: the index of the first occurrence of the maximum value of
a list (0 for the empty list, on which numpy raises instead). -/
def argmaxIdx : List Int → Nat
  | [] => 0
  | v :: vs =>
      if vs = [] then 0
      else if nth vs (argmaxIdx vs) ≤ v then 0 else argmaxIdx vs + 1

/-- The per-slice mutable state of the script: the four append-only series
and the frame counter.  Detection timestamps (`time.time()` values) are
modelled opaquely as natural numbers supplied by the harness. -/
structure SliceState where
  sSADs : List Nat
  motionEstimates : List Int
  motionDetectionTimes : List Nat
  motionDetectionFrameNumbers : List Nat
  currentFrame : Nat
  deriving DecidableEq, Repr

/-- The state set up at the start of each time slice: four empty series and
`currentFrame = 1`. -/
def initSlice : SliceState :=
  { sSADs := [], motionEstimates := [], motionDetectionTimes := [],
    motionDetectionFrameNumbers := [], currentFrame := 1 }

/-- The diagnostic values computed inside the detection branch of
`mmotion.analyse`: the flat argmax indices of `Xabs` and `Yabs` and their
(row, column) conversions. -/
structure DetectionData where
  indexMaxXabs : Nat
  indexMaxYabs : Nat
  rowForMaxXabs : Nat
  columnForMaxXabs : Nat
  rowForMaxYabs : Nat
  columnForMaxYabs : Nat
  deriving DecidableEq, Repr

/-- `mmotion.analyse(self, a)` for one frame: appends `sSAD` and
`motionEstimate` to their series; when `motionEstimate > threshold` appends
the wall-clock time and the current frame number to the detection series
and computes the argmax diagnostics; always increments the frame counter.
Returns the updated state and the diagnostics of the detection branch
(`none` when no detection fired). -/
def analyse (th : Int) (cols : Nat) (a : Grid) (now : Nat) (s : SliceState) :
    SliceState × Option DetectionData :=
  let sSAD := sSADOf a
  let Xabs := xabsOf a
  let Yabs := yabsOf a
  let motionEstimate := Xabs.sum + Yabs.sum
  let sSADs1 := s.sSADs ++ [sSAD]
  let motionEstimates1 := s.motionEstimates ++ [motionEstimate]
  if motionEstimate > th then
    let indexMaxXabs := argmaxIdx Xabs
    let indexMaxYabs := argmaxIdx Yabs
    let rowForMaxXabs := indexMaxXabs / cols
    let columnForMaxXabs := indexMaxXabs - rowForMaxXabs * cols
    let rowForMaxYabs := indexMaxYabs / cols
    let columnForMaxYabs := indexMaxYabs - rowForMaxYabs * cols
    ({ sSADs := sSADs1, motionEstimates := motionEstimates1,
       motionDetectionTimes := s.motionDetectionTimes ++ [now],
       motionDetectionFrameNumbers := s.motionDetectionFrameNumbers ++ [s.currentFrame],
       currentFrame := s.currentFrame + 1 },
     some { indexMaxXabs := indexMaxXabs, indexMaxYabs := indexMaxYabs,
            rowForMaxXabs := rowForMaxXabs, columnForMaxXabs := columnForMaxXabs,
            rowForMaxYabs := rowForMaxYabs, columnForMaxYabs := columnForMaxYabs })
  else
    ({ sSADs := sSADs1, motionEstimates := motionEstimates1,
       motionDetectionTimes := s.motionDetectionTimes,
       motionDetectionFrameNumbers := s.motionDetectionFrameNumbers,
       currentFrame := s.currentFrame + 1 },
     none)

/-- A whole time slice: the analysis callback applied in order to each
delivered frame (grid paired with its wall-clock time), starting from the
freshly reset state. -/
def runSlice (th : Int) (cols : Nat) (inputs : List (Grid × Nat)) : SliceState :=
  inputs.foldl (fun s p => (analyse th cols p.1 p.2 s).1) initSlice

/-- The (frame number, timestamp) pairs of the frames that fire a detection,
when the first frame of `inputs` carries frame number `n`. -/
def detectedFrom (th : Int) : Nat → List (Grid × Nat) → List (Nat × Nat)
  | _, [] => []
  | n, (a, t) :: rest =>
      if th < motionEstimateOf a then (n, t) :: detectedFrom th (n + 1) rest
      else detectedFrom th (n + 1) rest

/-- The teardown loop `for i in range(len(vals)): write(str(i+1) + ": " +
str(vals[i]))`, numbering the values from `n` on: one line per value. -/
def numberedLines {α : Type} [ToString α] : Nat → List α → List String
  | _, [] => []
  | n, v :: vs => (toString n ++ ": " ++ toString v) :: numberedLines (n + 1) vs

/-- The teardown loop for the detection-times file, which writes
`str(motionDetectionFrameNumbers[i]) + ': ' + str(motionDetectionTimes[i])`
for each detection: one line per (frame number, timestamp) pair. -/
def pairLines : List Nat → List Nat → List String
  | a :: as, b :: bs => (toString a ++ ": " ++ toString b) :: pairLines as bs
  | _, _ => []

/-- The lines of the `SADs.txt` file flushed at slice teardown. -/
def sSADLines (s : SliceState) : List String := numberedLines 1 s.sSADs

/-- The lines of the `motionEstimate.txt` file flushed at slice teardown. -/
def motionEstimateLines (s : SliceState) : List String :=
  numberedLines 1 s.motionEstimates

/-- The lines of the `motion detection times.txt` file flushed at slice
teardown. -/
def detectionLines (s : SliceState) : List String :=
  pairLines s.motionDetectionFrameNumbers s.motionDetectionTimes

/-- A concrete 1-row grid: one macroblock with `x = -128`, one with
`x = 127`, and ten with `y = 127`.  Its `motionEstimate` is
`(-128) + 127 + 10 * 127 = 1269`, above the default threshold. -/
def c4Grid : Grid :=
  [[{ x := -128, y := 0, sad := 0 }, { x := 127, y := 0, sad := 0 }] ++
    List.replicate 10 { x := 0, y := 127, sad := 0 }]

/-- Negating the x component of every macroblock, in int8 arithmetic. -/
def negateX (a : Grid) : Grid :=
  a.map (fun r => r.map (fun b => { b with x := int8Neg b.x }))

/-- Negating the y component of every macroblock, in int8 arithmetic. -/
def negateY (a : Grid) : Grid :=
  a.map (fun r => r.map (fun b => { b with y := int8Neg b.y }))

lemma toInt8_eq_self {v : Int} (h1 : -128 ≤ v) (h2 : v ≤ 127) : toInt8 v = v := by
  unfold toInt8; omega

lemma int8Abs_eq_natAbs {v : Int} (h1 : -128 < v) (h2 : v ≤ 127) :
    int8Abs v = (v.natAbs : Int) := by
  unfold int8Abs toInt8; omega

lemma int8Abs_int8Neg {v : Int} (h1 : -128 ≤ v) (h2 : v ≤ 127) :
    int8Abs (int8Neg v) = int8Abs v := by
  unfold int8Abs int8Neg toInt8; omega

lemma analyse_fst (th : Int) (cols : Nat) (a : Grid) (now : Nat) (s : SliceState) :
    (analyse th cols a now s).1 =
      { sSADs := s.sSADs ++ [sSADOf a],
        motionEstimates := s.motionEstimates ++ [motionEstimateOf a],
        motionDetectionTimes :=
          if th < motionEstimateOf a then s.motionDetectionTimes ++ [now]
          else s.motionDetectionTimes,
        motionDetectionFrameNumbers :=
          if th < motionEstimateOf a then s.motionDetectionFrameNumbers ++ [s.currentFrame]
          else s.motionDetectionFrameNumbers,
        currentFrame := s.currentFrame + 1 } := by
  by_cases h : th < (xabsOf a).sum + (yabsOf a).sum
  · simp [analyse, motionEstimateOf, h]
  · simp [analyse, motionEstimateOf, h]

lemma analyse_snd (th : Int) (cols : Nat) (a : Grid) (now : Nat) (s : SliceState) :
    (analyse th cols a now s).2 =
      if th < motionEstimateOf a then
        some { indexMaxXabs := argmaxIdx (xabsOf a),
               indexMaxYabs := argmaxIdx (yabsOf a),
               rowForMaxXabs := argmaxIdx (xabsOf a) / cols,
               columnForMaxXabs :=
                 argmaxIdx (xabsOf a) - (argmaxIdx (xabsOf a) / cols) * cols,
               rowForMaxYabs := argmaxIdx (yabsOf a) / cols,
               columnForMaxYabs :=
                 argmaxIdx (yabsOf a) - (argmaxIdx (yabsOf a) / cols) * cols }
      else none := by
  by_cases h : th < (xabsOf a).sum + (yabsOf a).sum
  · simp [analyse, motionEstimateOf, h]
  · simp [analyse, motionEstimateOf, h]

lemma sub_div_mul_eq_mod (i cols : Nat) : i - (i / cols) * cols = i % cols := by
  have h : (i / cols) * cols + i % cols = i := by
    rw [Nat.mul_comm]; exact Nat.div_add_mod i cols
  omega

lemma row_col_decomp (i cols : Nat) (hc : 0 < cols) :
    (i / cols) * cols + (i - (i / cols) * cols) = i ∧ i - (i / cols) * cols < cols := by
  have h1 : (i / cols) * cols ≤ i := Nat.div_mul_le_self i cols
  have h2 := sub_div_mul_eq_mod i cols
  have h3 : i % cols < cols := Nat.mod_lt i hc
  omega

lemma argmaxIdx_lt_length : ∀ l : List Int, l ≠ [] → argmaxIdx l < l.length
  | v :: vs, _ => by
      by_cases h : vs = []
      · simp [argmaxIdx, h]
      · by_cases h2 : nth vs (argmaxIdx vs) ≤ v
        · simp [argmaxIdx, h, h2]
        · have ih := argmaxIdx_lt_length vs h
          simp [argmaxIdx, h, h2]
          omega

lemma nth_le_nth_argmaxIdx : ∀ (l : List Int) (j : Nat), j < l.length →
    nth l j ≤ nth l (argmaxIdx l)
  | v :: vs, j, hj => by
      by_cases h : vs = []
      · subst h
        have hj0 : j = 0 := by simpa using hj
        subst hj0
        simp [argmaxIdx]
      · by_cases h2 : nth vs (argmaxIdx vs) ≤ v
        · have hv : nth (v :: vs) (argmaxIdx (v :: vs)) = v := by
            simp [argmaxIdx, h, h2, nth]
          rw [hv]
          cases j with
          | zero => simp [nth]
          | succ k =>
              have hk : k < vs.length := by simpa using hj
              have ih := nth_le_nth_argmaxIdx vs k hk
              calc nth (v :: vs) (k + 1) = nth vs k := by simp [nth]
                _ ≤ nth vs (argmaxIdx vs) := ih
                _ ≤ v := h2
        · have hv : nth (v :: vs) (argmaxIdx (v :: vs)) = nth vs (argmaxIdx vs) := by
            simp [argmaxIdx, h, h2, nth]
          rw [hv]
          cases j with
          | zero =>
              have := not_le.mp h2
              simp only [nth]
              omega
          | succ k =>
              have hk : k < vs.length := by simpa using hj
              have ih := nth_le_nth_argmaxIdx vs k hk
              simpa [nth] using ih

lemma nth_lt_nth_argmaxIdx_of_lt : ∀ (l : List Int) (j : Nat), j < argmaxIdx l →
    nth l j < nth l (argmaxIdx l)
  | v :: vs, j, hj => by
      by_cases h : vs = []
      · subst h; simp [argmaxIdx] at hj
      · by_cases h2 : nth vs (argmaxIdx vs) ≤ v
        · simp [argmaxIdx, h, h2] at hj
        · have harg : argmaxIdx (v :: vs) = argmaxIdx vs + 1 := by
            simp [argmaxIdx, h, h2]
          rw [harg] at hj ⊢
          cases j with
          | zero =>
              have := not_le.mp h2
              simp only [nth]
              omega
          | succ k =>
              have hk : k < argmaxIdx vs := by omega
              have ih := nth_lt_nth_argmaxIdx_of_lt vs k hk
              simpa [nth] using ih

set_option maxRecDepth 4000 in
lemma runSlice_foldl_spec (th : Int) (cols : Nat) :
    ∀ (inputs : List (Grid × Nat)) (s : SliceState),
      inputs.foldl (fun s p => (analyse th cols p.1 p.2 s).1) s =
        { sSADs := s.sSADs ++ inputs.map (fun p => sSADOf p.1),
          motionEstimates := s.motionEstimates ++ inputs.map (fun p => motionEstimateOf p.1),
          motionDetectionTimes :=
            s.motionDetectionTimes ++ (detectedFrom th s.currentFrame inputs).map Prod.snd,
          motionDetectionFrameNumbers :=
            s.motionDetectionFrameNumbers ++ (detectedFrom th s.currentFrame inputs).map Prod.fst,
          currentFrame := s.currentFrame + inputs.length }
  | [], s => by simp [detectedFrom]
  | (a, t) :: rest, s => by
      rw [List.foldl_cons]
      by_cases h : th < motionEstimateOf a
      · have hstep : (analyse th cols a t s).1 =
            { sSADs := s.sSADs ++ [sSADOf a],
              motionEstimates := s.motionEstimates ++ [motionEstimateOf a],
              motionDetectionTimes := s.motionDetectionTimes ++ [t],
              motionDetectionFrameNumbers :=
                s.motionDetectionFrameNumbers ++ [s.currentFrame],
              currentFrame := s.currentFrame + 1 } := by
          rw [analyse_fst]; simp [h]
        have hdet : detectedFrom th s.currentFrame ((a, t) :: rest)
            = (s.currentFrame, t) :: detectedFrom th (s.currentFrame + 1) rest := by
          simp [detectedFrom, h]
        rw [hstep, runSlice_foldl_spec th cols rest _, hdet]
        simp [List.append_assoc]
        omega
      · have hstep : (analyse th cols a t s).1 =
            { sSADs := s.sSADs ++ [sSADOf a],
              motionEstimates := s.motionEstimates ++ [motionEstimateOf a],
              motionDetectionTimes := s.motionDetectionTimes,
              motionDetectionFrameNumbers := s.motionDetectionFrameNumbers,
              currentFrame := s.currentFrame + 1 } := by
          rw [analyse_fst]; simp [h]
        have hdet : detectedFrom th s.currentFrame ((a, t) :: rest)
            = detectedFrom th (s.currentFrame + 1) rest := by
          simp [detectedFrom, h]
        rw [hstep, runSlice_foldl_spec th cols rest _, hdet]
        simp [List.append_assoc]
        omega

lemma flatten_map_map {α β : Type} (f : α → β) :
    ∀ (a : List (List α)), (a.map (fun r => r.map f)).flatten = a.flatten.map f
  | [] => rfl
  | r :: rs => by
      rw [List.map_cons, List.flatten_cons, List.flatten_cons, List.map_append,
        flatten_map_map f rs]

lemma append_singleton_ne {α : Type} (l : List α) (x : α) : l ++ [x] ≠ l := by
  intro hcontra
  have := congrArg List.length hcontra
  simp at this

lemma sSADOf_eq_row_sums (a : Grid) :
    sSADOf a = (a.map (fun r => (r.map (fun b => b.sad)).sum)).sum := by
  unfold sSADOf
  induction a with
  | nil => rfl
  | cons r rs ih =>
      simp [ih, Function.comp]
      rfl

lemma pairLines_map_fst_snd : ∀ l : List (Nat × Nat),
    pairLines (l.map Prod.fst) (l.map Prod.snd) =
      l.map (fun p => toString p.1 ++ ": " ++ toString p.2)
  | [] => rfl
  | (x, y) :: ps => by
      rw [List.map_cons, List.map_cons, List.map_cons]
      show (toString x ++ ": " ++ toString y) :: pairLines _ _ = _ :: _
      rw [pairLines_map_fst_snd ps]

lemma detectedFrom_fst_bounds (th : Int) : ∀ (inputs : List (Grid × Nat)) (n : Nat)
    (p : Nat × Nat), p ∈ detectedFrom th n inputs → n ≤ p.1 ∧ p.1 < n + inputs.length
  | [], n, p, hp => by simp [detectedFrom] at hp
  | (a, t) :: rest, n, p, hp => by
      by_cases h : th < motionEstimateOf a
      · rw [detectedFrom, if_pos h] at hp
        rcases List.mem_cons.mp hp with hcase | hmem
        · subst hcase; simp
        · have := detectedFrom_fst_bounds th rest (n + 1) p hmem
          simp only [List.length_cons]
          omega
      · rw [detectedFrom, if_neg h] at hp
        have := detectedFrom_fst_bounds th rest (n + 1) p hp
        simp only [List.length_cons]
        omega

lemma detectedFrom_fst_sorted (th : Int) : ∀ (inputs : List (Grid × Nat)) (n : Nat),
    ((detectedFrom th n inputs).map Prod.fst).Pairwise (· < ·)
  | [], _ => by simp [detectedFrom]
  | (a, t) :: rest, n => by
      by_cases h : th < motionEstimateOf a
      · rw [detectedFrom, if_pos h, List.map_cons]
        refine List.Pairwise.cons ?_ (detectedFrom_fst_sorted th rest (n + 1))
        intro q hq
        simp only [List.mem_map] at hq
        obtain ⟨p, hp, hq2⟩ := hq
        have := detectedFrom_fst_bounds th rest (n + 1) p hp
        omega
      · rw [detectedFrom, if_neg h]
        exact detectedFrom_fst_sorted th rest (n + 1)

/-- C1 fails as stated: for the single-macroblock grid with `x = -128`,
the appended `motionEstimate` is `-128`, which is negative and differs from
the mathematical sum of absolute values `|-128| + |0| = 128`, because
`np.absolute` on int8 wraps `|-128|` back to `-128`. -/
theorem C1_counterexample :
    (analyse motionDetectionThreshold columnsPerRow
        [[{ x := -128, y := 0, sad := 0 }]] 0 initSlice).1.motionEstimates
      = [(-128 : Int)] ∧
    ((-128 : Int) < 0) ∧
    ((-128 : Int) ≠
      (((-128 : Int).natAbs : Int) + ((0 : Int).natAbs : Int))) := by
  decide

/-- C1 (amended): for every in-range input grid in which no x or y
component equals -128, the `motionEstimate` value appended by the analysis
callback equals the exact mathematical sum of the absolute values of all x
components plus all y components, and that value is non-negative.  (A
component equal to -128 instead contributes -128, the int8 wrap of its
absolute value.) -/
theorem C1_motionEstimate_abs_sum (th : Int) (cols : Nat) (a : Grid) (t : Nat)
    (s : SliceState)
    (hx : ∀ b ∈ a.flatten, -128 < b.x ∧ b.x ≤ 127)
    (hy : ∀ b ∈ a.flatten, -128 < b.y ∧ b.y ≤ 127) :
    (analyse th cols a t s).1.motionEstimates =
      s.motionEstimates ++
        [(a.flatten.map (fun b => (b.x.natAbs : Int))).sum +
          (a.flatten.map (fun b => (b.y.natAbs : Int))).sum] ∧
    0 ≤ (a.flatten.map (fun b => (b.x.natAbs : Int))).sum +
        (a.flatten.map (fun b => (b.y.natAbs : Int))).sum := by
  have hxeq : xabsOf a = a.flatten.map (fun b => (b.x.natAbs : Int)) := by
    unfold xabsOf
    apply List.map_congr_left
    intro b hb
    exact int8Abs_eq_natAbs (hx b hb).1 (hx b hb).2
  have hyeq : yabsOf a = a.flatten.map (fun b => (b.y.natAbs : Int)) := by
    unfold yabsOf
    apply List.map_congr_left
    intro b hb
    exact int8Abs_eq_natAbs (hy b hb).1 (hy b hb).2
  constructor
  · rw [analyse_fst]
    simp only [motionEstimateOf, hxeq, hyeq]
  · apply add_nonneg <;>
      · apply List.sum_nonneg
        intro z hz
        simp only [List.mem_map] at hz
        obtain ⟨b, hb, hzb⟩ := hz
        omega

/-- Witness for C1 (amended) at the grid `[[{x := 5, y := -3, sad := 7}]]`:
the appended `motionEstimate` is `|5| + |-3| = 8`. -/
theorem C1_motionEstimate_abs_sum_witness :
    (analyse 1000 81 [[{ x := 5, y := -3, sad := 7 }]] 0 initSlice).1.motionEstimates
      = [(8 : Int)] := by
  have h := C1_motionEstimate_abs_sum 1000 81 [[{ x := 5, y := -3, sad := 7 }]] 0
    initSlice (by decide) (by decide)
  rw [h.1]
  decide

/-- C2: the analysis callback appends one wall-clock timestamp and the
current frame index to the two detection series exactly when
`motionEstimate > motionDetectionThreshold` (strict); on equality nothing
is recorded. -/
theorem C2_detection_iff_threshold (th : Int) (cols : Nat) (a : Grid) (t : Nat)
    (s : SliceState) :
    ((analyse th cols a t s).1.motionDetectionTimes,
      (analyse th cols a t s).1.motionDetectionFrameNumbers) =
      (if motionEstimateOf a > th
       then (s.motionDetectionTimes ++ [t],
             s.motionDetectionFrameNumbers ++ [s.currentFrame])
       else (s.motionDetectionTimes, s.motionDetectionFrameNumbers)) ∧
    (motionEstimateOf a > th ↔
      (analyse th cols a t s).1.motionDetectionTimes =
        s.motionDetectionTimes ++ [t] ∧
      (analyse th cols a t s).1.motionDetectionFrameNumbers =
        s.motionDetectionFrameNumbers ++ [s.currentFrame]) ∧
    (motionEstimateOf a = th →
      (analyse th cols a t s).1.motionDetectionTimes = s.motionDetectionTimes ∧
      (analyse th cols a t s).1.motionDetectionFrameNumbers =
        s.motionDetectionFrameNumbers) := by
  rw [analyse_fst]
  by_cases h : th < motionEstimateOf a
  · refine ⟨by simp [h], ⟨fun _ => by simp [h], fun _ => h⟩, fun heq => ?_⟩
    omega
  · refine ⟨by simp [h], ⟨fun hlt => absurd hlt h, fun hc => ?_⟩, fun heq => by simp [h]⟩
    rw [if_neg h] at hc
    exact absurd hc.1.symm (append_singleton_ne _ _)

/-- C3: the `sSAD` value appended by the analysis callback is the exact sum
of the `sad` field over every macroblock of the grid (sum over rows of the
per-row sums). -/
theorem C3_sSAD_exact_sum (th : Int) (cols : Nat) (a : Grid) (t : Nat)
    (s : SliceState) :
    (analyse th cols a t s).1.sSADs =
      s.sSADs ++ [(a.map (fun r => (r.map (fun b => b.sad)).sum)).sum] := by
  rw [analyse_fst, sSADOf_eq_row_sums]

/-- C4 fails as stated: on `c4Grid` (which contains `x = -128` and fires a
detection with `motionEstimate = 1269 > 1000`) the callback reports flat
index 1 for the max-`|x|` macroblock, while the argmax of the mathematical
absolute values `|x|` is index 0 (the `x = -128` block): `np.argmax` runs
over the int8-wrapped `Xabs`, in which `|-128|` has wrapped to `-128`. -/
theorem C4_counterexample :
    (analyse motionDetectionThreshold columnsPerRow c4Grid 0 initSlice).2 =
      some { indexMaxXabs := 1, indexMaxYabs := 2, rowForMaxXabs := 0,
             columnForMaxXabs := 1, rowForMaxYabs := 0, columnForMaxYabs := 2 } ∧
    motionEstimateOf c4Grid = 1269 ∧
    argmaxIdx (c4Grid.flatten.map (fun b => (b.x.natAbs : Int))) = 0 ∧
    (1 : Nat) ≠ 0 := by
  decide

/-- C4 (amended): whenever a detection fires, the reported flat indices are
the argmax, with ties broken by first occurrence, of the int8-wrapped
absolute-value arrays `Xabs` and `Yabs` actually computed by the callback
(which differ from the mathematical `|x|`, `|y|` only at components equal
to -128), and the reported coordinates satisfy
`row * columnsPerRow + column = flat index` with `0 ≤ column <
columnsPerRow` and `row = flat index / columnsPerRow`. -/
theorem C4_argmax_coordinates (th : Int) (cols : Nat) (a : Grid) (t : Nat)
    (s : SliceState) (d : DetectionData) (hc : 0 < cols)
    (hne : a.flatten ≠ [])
    (hdet : (analyse th cols a t s).2 = some d) :
    d.indexMaxXabs = argmaxIdx (xabsOf a) ∧
    d.indexMaxYabs = argmaxIdx (yabsOf a) ∧
    d.indexMaxXabs < (xabsOf a).length ∧
    d.indexMaxYabs < (yabsOf a).length ∧
    (∀ j < (xabsOf a).length, nth (xabsOf a) j ≤ nth (xabsOf a) d.indexMaxXabs) ∧
    (∀ j < d.indexMaxXabs, nth (xabsOf a) j < nth (xabsOf a) d.indexMaxXabs) ∧
    (∀ j < (yabsOf a).length, nth (yabsOf a) j ≤ nth (yabsOf a) d.indexMaxYabs) ∧
    (∀ j < d.indexMaxYabs, nth (yabsOf a) j < nth (yabsOf a) d.indexMaxYabs) ∧
    d.rowForMaxXabs * cols + d.columnForMaxXabs = d.indexMaxXabs ∧
    d.columnForMaxXabs < cols ∧
    d.rowForMaxXabs = d.indexMaxXabs / cols ∧
    d.rowForMaxYabs * cols + d.columnForMaxYabs = d.indexMaxYabs ∧
    d.columnForMaxYabs < cols ∧
    d.rowForMaxYabs = d.indexMaxYabs / cols := by
  have hxne : xabsOf a ≠ [] := by
    unfold xabsOf
    intro hmap
    exact hne (List.map_eq_nil_iff.mp hmap)
  have hyne : yabsOf a ≠ [] := by
    unfold yabsOf
    intro hmap
    exact hne (List.map_eq_nil_iff.mp hmap)
  rw [analyse_snd] at hdet
  by_cases h : th < motionEstimateOf a
  · rw [if_pos h] at hdet
    obtain rfl := Option.some.inj hdet
    refine ⟨rfl, rfl, argmaxIdx_lt_length _ hxne, argmaxIdx_lt_length _ hyne,
      fun j hj => nth_le_nth_argmaxIdx _ j hj,
      fun j hj => nth_lt_nth_argmaxIdx_of_lt _ j hj,
      fun j hj => nth_le_nth_argmaxIdx _ j hj,
      fun j hj => nth_lt_nth_argmaxIdx_of_lt _ j hj,
      (row_col_decomp (argmaxIdx (xabsOf a)) cols hc).1,
      (row_col_decomp (argmaxIdx (xabsOf a)) cols hc).2, rfl,
      (row_col_decomp (argmaxIdx (yabsOf a)) cols hc).1,
      (row_col_decomp (argmaxIdx (yabsOf a)) cols hc).2, rfl⟩
  · rw [if_neg h] at hdet
    exact absurd hdet (by simp)

/-- Witness for C4 (amended) on `c4Grid` with the default configuration:
the detection fires, the reported flat x-index is the argmax of `Xabs`,
and the reported (row, column) pairs recompose the flat indices. -/
theorem C4_argmax_coordinates_witness :
    (1 : Nat) = argmaxIdx (xabsOf c4Grid) ∧
    (0 : Nat) * 81 + 1 = 1 ∧ (1 : Nat) < 81 ∧
    (0 : Nat) * 81 + 2 = 2 ∧ (2 : Nat) < 81 := by
  have h := C4_argmax_coordinates 1000 81 c4Grid 0 initSlice
    { indexMaxXabs := 1, indexMaxYabs := 2, rowForMaxXabs := 0,
      columnForMaxXabs := 1, rowForMaxYabs := 0, columnForMaxYabs := 2 }
    (by decide) (by decide) (by decide)
  exact ⟨h.1, h.2.2.2.2.2.2.2.2.1, h.2.2.2.2.2.2.2.2.2.1,
    h.2.2.2.2.2.2.2.2.2.2.2.1, h.2.2.2.2.2.2.2.2.2.2.2.2.1⟩

/-- C5: the frame counter starts at 1 in a fresh time slice, increases by
exactly 1 on every invocation of the analysis callback regardless of
detection, and after any sequence of invocations within one slice equals
the number of invocations plus 1. -/
theorem C5_frame_counter (th : Int) (cols : Nat) (inputs : List (Grid × Nat)) :
    initSlice.currentFrame = 1 ∧
    (∀ (a : Grid) (t : Nat) (s : SliceState),
      (analyse th cols a t s).1.currentFrame = s.currentFrame + 1) ∧
    (runSlice th cols inputs).currentFrame = inputs.length + 1 := by
  refine ⟨rfl, fun a t s => by rw [analyse_fst], ?_⟩
  unfold runSlice
  rw [runSlice_foldl_spec]
  simp [initSlice]
  omega

/-- C6: after any sequence of callback invocations within one slice, the
`sSAD` and `motionEstimate` series each have one entry per invocation, the
two detection series have equal lengths, and per call the unconditional
series grow by exactly one entry while the detection series grow by one
entry exactly when `motionEstimate` exceeds the threshold. -/
theorem C6_series_lengths (th : Int) (cols : Nat) (inputs : List (Grid × Nat)) :
    (runSlice th cols inputs).sSADs.length = inputs.length ∧
    (runSlice th cols inputs).motionEstimates.length = inputs.length ∧
    (runSlice th cols inputs).motionDetectionTimes.length =
      (runSlice th cols inputs).motionDetectionFrameNumbers.length ∧
    (∀ (a : Grid) (t : Nat) (s : SliceState),
      (analyse th cols a t s).1.sSADs.length = s.sSADs.length + 1 ∧
      (analyse th cols a t s).1.motionEstimates.length =
        s.motionEstimates.length + 1 ∧
      (analyse th cols a t s).1.motionDetectionTimes.length =
        (if motionEstimateOf a > th then s.motionDetectionTimes.length + 1
         else s.motionDetectionTimes.length) ∧
      (analyse th cols a t s).1.motionDetectionFrameNumbers.length =
        (if motionEstimateOf a > th then s.motionDetectionFrameNumbers.length + 1
         else s.motionDetectionFrameNumbers.length)) := by
  refine ⟨?_, ?_, ?_, ?_⟩
  · unfold runSlice; rw [runSlice_foldl_spec]; simp [initSlice]
  · unfold runSlice; rw [runSlice_foldl_spec]; simp [initSlice]
  · unfold runSlice; rw [runSlice_foldl_spec]; simp [initSlice]
  · intro a t s
    rw [analyse_fst]
    by_cases h : th < motionEstimateOf a
    · simp [h]
    · simp [h]

/-- C7: negating all x components, or all y components, in int8 arithmetic
(so that -128 negates to itself) leaves the computed `motionEstimate`
unchanged. -/
theorem C7_negation_invariance (a : Grid)
    (hx : ∀ b ∈ a.flatten, -128 ≤ b.x ∧ b.x ≤ 127)
    (hy : ∀ b ∈ a.flatten, -128 ≤ b.y ∧ b.y ≤ 127) :
    motionEstimateOf (negateX a) = motionEstimateOf a ∧
    motionEstimateOf (negateY a) = motionEstimateOf a := by
  have hXx : xabsOf (negateX a) = xabsOf a := by
    unfold xabsOf negateX
    rw [flatten_map_map, List.map_map]
    apply List.map_congr_left
    intro b hb
    exact int8Abs_int8Neg (hx b hb).1 (hx b hb).2
  have hXy : yabsOf (negateX a) = yabsOf a := by
    unfold yabsOf negateX
    rw [flatten_map_map, List.map_map]
    rfl
  have hYy : yabsOf (negateY a) = yabsOf a := by
    unfold yabsOf negateY
    rw [flatten_map_map, List.map_map]
    apply List.map_congr_left
    intro b hb
    exact int8Abs_int8Neg (hy b hb).1 (hy b hb).2
  have hYx : xabsOf (negateY a) = xabsOf a := by
    unfold xabsOf negateY
    rw [flatten_map_map, List.map_map]
    rfl
  constructor
  · unfold motionEstimateOf
    rw [hXx, hXy]
  · unfold motionEstimateOf
    rw [hYx, hYy]

/-- Witness for C7 at a grid containing `x = -128` (which int8 negation
maps to itself). -/
theorem C7_negation_invariance_witness :
    motionEstimateOf (negateX [[{ x := -128, y := 7, sad := 3 }]]) =
      motionEstimateOf [[{ x := -128, y := 7, sad := 3 }]] ∧
    motionEstimateOf (negateY [[{ x := -128, y := 7, sad := 3 }]]) =
      motionEstimateOf [[{ x := -128, y := 7, sad := 3 }]] :=
  C7_negation_invariance [[{ x := -128, y := 7, sad := 3 }]]
    (by decide) (by decide)

/-- C8: `sSAD` is additive over a split of the grid into a block of top
rows and a block of bottom rows. -/
theorem C8_sSAD_additive (g1 g2 : Grid) :
    sSADOf (g1 ++ g2) = sSADOf g1 + sSADOf g2 := by
  unfold sSADOf
  rw [List.flatten_append, List.map_append, List.sum_append]

/-- C9: at slice teardown the SADs log holds one line
`"<frameIndex>: <sSAD>"` per analysed frame, 1-indexed in frame order; the
motionEstimate log likewise; the detection-times log holds one line
`"<frameIndex>: <timestamp>"` per detection event only, in detection
order. -/
theorem C9_teardown_logs (th : Int) (cols : Nat) (inputs : List (Grid × Nat)) :
    sSADLines (runSlice th cols inputs) =
      numberedLines 1 (inputs.map (fun p => sSADOf p.1)) ∧
    motionEstimateLines (runSlice th cols inputs) =
      numberedLines 1 (inputs.map (fun p => motionEstimateOf p.1)) ∧
    detectionLines (runSlice th cols inputs) =
      (detectedFrom th 1 inputs).map
        (fun p => toString p.1 ++ ": " ++ toString p.2) := by
  unfold sSADLines motionEstimateLines detectionLines runSlice
  rw [runSlice_foldl_spec]
  refine ⟨by simp [initSlice], by simp [initSlice], ?_⟩
  simp only [initSlice, List.nil_append]
  exact pairLines_map_fst_snd _

/-- C10: within one slice the recorded detection frame numbers are strictly
increasing, every recorded frame number k satisfies 1 ≤ k and is below the
final frame counter (it equals the counter value at the moment it was
recorded), and no frame is recorded twice. -/
theorem C10_detection_frames (th : Int) (cols : Nat) (inputs : List (Grid × Nat)) :
    (runSlice th cols inputs).motionDetectionFrameNumbers.Pairwise (· < ·) ∧
    (∀ k ∈ (runSlice th cols inputs).motionDetectionFrameNumbers,
      1 ≤ k ∧ k < (runSlice th cols inputs).currentFrame) ∧
    (runSlice th cols inputs).motionDetectionFrameNumbers.Nodup := by
  unfold runSlice
  rw [runSlice_foldl_spec]
  have hs := detectedFrom_fst_sorted th inputs 1
  refine ⟨?_, ?_, ?_⟩
  · simpa [initSlice] using hs
  · intro k hk
    simp only [initSlice, List.nil_append, List.mem_map] at hk
    obtain ⟨p, hp, hpk⟩ := hk
    have := detectedFrom_fst_bounds th inputs 1 p hp
    simp only [initSlice]
    omega
  · have hnd : ((detectedFrom th 1 inputs).map Prod.fst).Nodup :=
      hs.imp (fun hlt => Nat.ne_of_lt hlt)
    simpa [initSlice] using hnd

end ALTmotion
